import Mathlib

/-!
# Verification of the OCR layout-recovery core

Shallow embedding, in Lean 4, of the core algorithms of the
`recover-layout-from-ocr` repository, together with proofs and refutations of
the behavioural claims made by its natural-language specification.

Embedding conventions:
* Python `int` values are `Int`, Python `float` values are `ℚ` (the code only
  performs field arithmetic and comparisons on them).
* Python `sorted`/`list.sort` is a stable sort; it is embedded as
  `List.insertionSort`, which is also stable, hence extensionally the same
  function on every total transitive order used here.
* Python `int(x)` applied to a float truncates toward zero; it is embedded as
  `pyTruncate`.
* A Python function that may raise an uncaught exception is embedded with an
  `Except` codomain; a caught-and-degraded exception is embedded by the
  fallback value the handler returns.
* User-supplied filter callables may raise; a predicate is therefore embedded
  as returning `Option Bool`, where `none` models a raising call (the code
  treats it as "keep" and continues).
-/

/- Batteries marks the arithmetic of `Rat` irreducible, which only blocks
elaborator-side evaluation (the kernel ignores reducibility); restore
default reducibility so that concrete instances can be settled by
`decide`. -/
attribute [local semireducible] Rat.add Rat.mul Rat.sub Rat.inv

namespace RecoverLayout

/-! ## Geometry model: `BoundingBox` and its string parser
    (src/ocr_json2text_line.py, lines 21-53) -/

/-- Embedding of Python `str.split(',')` at the character level (structural,
so that concrete instances compute in the kernel): splits on every comma and
keeps empty pieces, e.g. `"".split(',') == ['']`. -/
def pySplitComma : List Char → List (List Char)
  | [] => [[]]
  | c :: rest =>
    if c = ',' then [] :: pySplitComma rest
    else
      match pySplitComma rest with
      | g :: gs => (c :: g) :: gs
      | [] => [[c]]

/-- Embedding of Python `str.strip()`: drop leading and trailing whitespace. -/
def pyStrip (cs : List Char) : List Char :=
  (((cs.dropWhile Char.isWhitespace).reverse).dropWhile Char.isWhitespace).reverse

/-- `str.strip()` on a `String`, via `pyStrip` (kernel-computable, unlike
`String.trim`). -/
def pyStripStr (s : String) : String :=
  ⟨pyStrip s.data⟩

/-- Embedding of Python `int(s)` on an already-stripped numeral body: the
digits of a decimal numeral, `none` when any character is not a digit
(a `ValueError` in the source). -/
def parseDigits (cs : List Char) : Option Nat :=
  if cs.isEmpty then none
  else
    cs.foldl
      (fun acc c =>
        match acc with
        | none => none
        | some n => if c.isDigit then some (n * 10 + (c.toNat - 48)) else none)
      (some 0)

/-- Embedding of Python `int(s)`: optional sign followed by decimal digits. -/
def parsePyInt (cs : List Char) : Option Int :=
  match cs with
  | [] => none
  | c :: rest =>
    if c = '-' then (parseDigits rest).map (fun n => -(n : Int))
    else if c = '+' then (parseDigits rest).map (fun n => (n : Int))
    else (parseDigits (c :: rest)).map (fun n => (n : Int))

/-- Embedding of `map(int, parts)` inside the `try` block of
`BoundingBox.from_string`: all parts must parse, otherwise the
`ValueError` is caught and the caller falls back to the zero box. -/
def parseAllInts : List (List Char) → Option (List Int)
  | [] => some []
  | s :: rest =>
    match parsePyInt s, parseAllInts rest with
    | some n, some l => some (n :: l)
    | _, _ => none

/-- `BoundingBox` (dataclass, lines 21-27). -/
structure BoundingBox where
  x : Int
  y : Int
  width : Int
  height : Int
deriving DecidableEq

/-- The comma-separated components of a box string after stripping, with the
empty components discarded, exactly as in line 38:
`[p.strip() for p in bbox_str.split(',') if p.strip()]`. -/
def boxParts (s : String) : List (List Char) :=
  ((pySplitComma s.data).map pyStrip).filter (fun p => !p.isEmpty)

/-- `BoundingBox.from_string` (lines 29-53): four components give the box
directly, eight components give the axis-aligned bounding rectangle of the
four corner points, and anything else (including a parse failure) degrades to
the zero box. -/
def BoundingBox.fromString (s : String) : BoundingBox :=
  let parts := boxParts s
  if parts.length = 4 then
    match parseAllInts parts with
    | some [x, y, w, h] => ⟨x, y, w, h⟩
    | _ => ⟨0, 0, 0, 0⟩
  else if parts.length = 8 then
    match parseAllInts parts with
    | some [x1, y1, x2, y2, x3, y3, x4, y4] =>
      let minX := min (min x1 x2) (min x3 x4)
      let maxX := max (max x1 x2) (max x3 x4)
      let minY := min (min y1 y2) (min y3 y4)
      let maxY := max (max y1 y2) (max y3 y4)
      ⟨minX, minY, maxX - minX, maxY - minY⟩
    | _ => ⟨0, 0, 0, 0⟩
  else ⟨0, 0, 0, 0⟩

/-- The spec's `"x,y,w,h"` form, made decidable: exactly four comma-separated
fields, each of which strips to an integer numeral. -/
def formXYWH (s : String) : Bool :=
  let fields := pySplitComma s.data
  fields.length == 4 && fields.all (fun f => (parsePyInt (pyStrip f)).isSome)

/-- The spec's well-formed 8-coordinate polygon form, made decidable. -/
def formPoly8 (s : String) : Bool :=
  let fields := pySplitComma s.data
  fields.length == 8 && fields.all (fun f => (parsePyInt (pyStrip f)).isSome)

/-- `true` when the box string has exactly four integer components after the
source's strip-and-drop-empty preprocessing, i.e. when `from_string` takes
the verbatim `x,y,width,height` branch. -/
def isQuadParts (s : String) : Bool :=
  match parseAllInts (boxParts s) with
  | some l => l.length == 4
  | none => false

/-! ## Converter state
    (`OCRJsonToTextLine.__init__` and `set_layout_params`, lines 110-156).
    The filter lists, which are also instance fields in the source, are
    passed explicitly to the functions that consult them; the log-file name
    is pure I/O configuration and is not modelled. -/

/-- The converter's mutable numeric state.  `__init__` (lines 113-128) stores
`char_height` as given, with no validation whatsoever. -/
structure OCRJsonToTextLine where
  sameLineThresholdRatio : ℚ
  pageWidth : Int
  pageHeight : Int
  charHeight : ℚ
  lineHeightMultiplier : ℚ
  dpi : Int
deriving DecidableEq

/-- `OCRJsonToTextLine.__init__(dpi, char_height, line_height_multiplier)`:
every field is assigned directly; in particular a non-positive `char_height`
is stored silently. -/
def OCRJsonToTextLine.init (dpi : Int) (charHeight : ℚ)
    (lineHeightMultiplier : ℚ) : OCRJsonToTextLine :=
  { sameLineThresholdRatio := 4/5
    pageWidth := 0
    pageHeight := 0
    charHeight := charHeight
    lineHeightMultiplier := lineHeightMultiplier
    dpi := dpi }

/-- `set_layout_params` (lines 138-154): each argument is optional; a
supplied `char_height <= 0` raises `ValueError` (embedded as
`Except.error`), before any field in question is written. -/
def OCRJsonToTextLine.setLayoutParams (st : OCRJsonToTextLine)
    (dpi : Option Int) (charHeight : Option ℚ)
    (lineHeightMultiplier : Option ℚ) : Except String OCRJsonToTextLine :=
  let st1 := match dpi with
    | some d => { st with dpi := d }
    | none => st
  match charHeight with
  | some ch =>
    if ch ≤ 0 then Except.error "char_height必须大于0，不能小于等于0"
    else
      let st2 := { st1 with charHeight := ch }
      Except.ok (match lineHeightMultiplier with
        | some m => { st2 with lineHeightMultiplier := m }
        | none => st2)
  | none =>
    Except.ok (match lineHeightMultiplier with
      | some m => { st1 with lineHeightMultiplier := m }
      | none => st1)

/-! ## Fragments and row clustering
    (`_collect_horizontal_fragments` produces dicts with keys
    text/x/y/width/height; `_group_fragments_by_line`, lines 585-617). -/

/-- A text fragment: the `{'text', 'x', 'y', 'width', 'height'}` dict built
in `_collect_horizontal_fragments` (lines 575-581). -/
structure Frag where
  text : String
  x : Int
  y : Int
  width : Int
  height : Int
deriving DecidableEq

/-- `frag['y_mid'] = frag['y'] + frag['height'] / 2.0` (line 591). -/
def yMid (f : Frag) : ℚ :=
  (f.y : ℚ) + (f.height : ℚ) / 2

/-- `sorted(current_group, key=lambda frag: frag['x'])` (lines 607, 615):
Python's sort is stable, embedded as the equally stable insertion sort. -/
def sortByX (l : List Frag) : List Frag :=
  List.insertionSort (fun a b => a.x ≤ b.x) l

/-- `fragments.sort(key=lambda frag: frag['y_mid'])` (line 592). -/
def sortByYMid (l : List Frag) : List Frag :=
  List.insertionSort (fun a b => yMid a ≤ yMid b) l

instance : IsTotal Frag (fun a b => a.x ≤ b.x) :=
  ⟨fun a b => le_total a.x b.x⟩

instance : IsTrans Frag (fun a b => a.x ≤ b.x) :=
  ⟨fun _ _ _ h1 h2 => le_trans h1 h2⟩

instance : IsTotal Frag (fun a b => yMid a ≤ yMid b) :=
  ⟨fun a b => le_total (yMid a) (yMid b)⟩

instance : IsTrans Frag (fun a b => yMid a ≤ yMid b) :=
  ⟨fun _ _ _ h1 h2 => le_trans h1 h2⟩

/-- The loop state of `_group_fragments_by_line`:
`(groups, current_group, current_mid)`.  In the source `current_mid` is
`None` exactly when `current_group` is empty, which only happens before the
first iteration; the embedding keeps the initial dummy mid `0`. -/
abbrev GroupState := List (List Frag) × List Frag × ℚ

/-- One iteration of the clustering loop (lines 599-612): join the current
cluster when the fragment's vertical center is within the threshold of the
running mean (which is then updated incrementally), otherwise close the
cluster (sorted by x) and start a new one. -/
def groupStep (threshold : ℚ) (st : GroupState) (item : Frag) : GroupState :=
  let (groups, currentGroup, currentMid) := st
  if currentGroup.isEmpty then
    (groups, [item], yMid item)
  else
    if |yMid item - currentMid| ≤ threshold then
      (groups, currentGroup ++ [item],
        (currentMid * currentGroup.length + yMid item) / (currentGroup.length + 1))
    else
      (groups ++ [sortByX currentGroup], [item], yMid item)

/-- The flush after the loop (lines 614-615): a non-empty current cluster is
closed, sorted by x. -/
def groupFinish (st : GroupState) : List (List Frag) :=
  let (groups, currentGroup, _) := st
  if currentGroup.isEmpty then groups else groups ++ [sortByX currentGroup]

/-- `_group_fragments_by_line(fragments, line_spacing, ratio)`
(lines 585-617). -/
def groupFragmentsByLine (fragments : List Frag) (lineSpacing ratio : ℚ) :
    List (List Frag) :=
  if fragments.isEmpty then []
  else
    let sortedFrags := sortByYMid fragments
    let threshold := max 1 (ratio * lineSpacing)
    groupFinish (sortedFrags.foldl (groupStep threshold) ([], [], 0))

/-- `line_spacing = max(1.0, char_height * line_height_multiplier)`
(line 427 of `convert_regions_to_text_lines`). -/
def lineSpacingOf (charHeight lineHeightMultiplier : ℚ) : ℚ :=
  max 1 (charHeight * lineHeightMultiplier)

/-! ## Blank lines between consecutive rows
    (`_compute_blank_lines_between`, lines 519-534). -/

/-- Python `int()` applied to a float: truncation toward zero. -/
def pyTruncate (q : ℚ) : Int :=
  if q < 0 then -(Int.floor (-q)) else Int.floor q

/-- `max(...)` over a non-empty Python iterable; the `[]` case is
unreachable at every call site (all callers guard for emptiness first). -/
def listMax : List Int → Int
  | [] => 0
  | x :: xs => xs.foldl max x

/-- `min(...)` over a non-empty Python iterable; the `[]` case is
unreachable at every call site. -/
def listMin : List Int → Int
  | [] => 0
  | x :: xs => xs.foldl min x

/-- The previous row's lowest edge, `max(item['y'] + item['height'])`
(line 526). -/
def rowBottom (row : List Frag) : Int :=
  listMax (row.map (fun f => f.y + f.height))

/-- The current row's highest edge, `min(item['y'])` (line 527). -/
def rowTop (row : List Frag) : Int :=
  listMin (row.map (fun f => f.y))

/-- `_compute_blank_lines_between(prev_row, curr_row, line_spacing)`
(lines 519-534): `blanks = int(gap_px / line_spacing)` with
`gap_px = max(0.0, curr_top - prev_bottom)` and `spacing_factor = 1`. -/
def computeBlankLinesBetween (prevRow currRow : List Frag)
    (lineSpacing : ℚ) : Int :=
  if prevRow.isEmpty || currRow.isEmpty || decide (lineSpacing ≤ 0) then 0
  else
    let prevBottom := rowBottom prevRow
    let currTop := rowTop currRow
    let gapPx : ℚ := max 0 ((currTop : ℚ) - (prevBottom : ℚ))
    max 0 (pyTruncate (gapPx / lineSpacing))

/-! ## The two filter chains
    (`_apply_box_filters`, lines 266-292, and `_apply_row_box_filters`,
    lines 294-349).  A user predicate is an arbitrary callable that may
    raise; it is embedded as a function returning `Option Bool`, `none`
    standing for a raising call, which the source logs and treats as
    "keep".  The filter-rejection logging is write-only I/O and is not
    modelled. -/

/-- The `page_info` dict handed to every predicate:
`{'page_width': self.page_width, 'page_height': self.page_height}`. -/
structure PageInfo where
  pageWidth : Int
  pageHeight : Int
deriving DecidableEq

/-- The `box_data` dict handed to fragment-level predicates.  The source
additionally passes the `bbox`/`line`/`region` objects themselves; their
geometric content is already present in the five fields kept here. -/
structure BoxData where
  text : String
  x : Int
  y : Int
  width : Int
  height : Int
deriving DecidableEq

/-- A fragment-level predicate (`boxFilter` callable). -/
abbrev BoxFilter := BoxData → PageInfo → Option Bool

/-- `_apply_box_filters` (lines 266-292): with no filters everything is
kept; otherwise every filter must return `True`; a raising filter is
skipped with the box kept. -/
def applyBoxFilters (boxFilters : List BoxFilter) (boxData : BoxData)
    (pageInfo : PageInfo) : Bool :=
  boxFilters.all (fun f => ((f boxData pageInfo).getD true))

/-- The `row_data` dict handed to row-level predicates (lines 320-334). -/
structure RowData where
  rowFragments : List Frag
  rowText : String
  boundsX : Int
  boundsY : Int
  boundsWidth : Int
  boundsHeight : Int
  boundsRight : Int
  boundsBottom : Int
  fragmentCount : Nat
  textLength : Nat

/-- A row-level predicate (`rowBoxFilter` callable). -/
abbrev RowFilter := RowData → PageInfo → Option Bool

/-- Builds the `row_data` dict (lines 311-334).  Only called on a non-empty
row; the `[]` case is unreachable. -/
def buildRowData (row : List Frag) : RowData :=
  let rowXs := row.map (fun f => f.x)
  let rowYs := row.map (fun f => f.y)
  let rowRights := row.map (fun f => f.x + f.width)
  let rowBottoms := row.map (fun f => f.y + f.height)
  let rowText := String.join (row.map (fun f => f.text))
  { rowFragments := row
    rowText := rowText
    boundsX := listMin rowXs
    boundsY := listMin rowYs
    boundsWidth := listMax rowRights - listMin rowXs
    boundsHeight := listMax rowBottoms - listMin rowYs
    boundsRight := listMax rowRights
    boundsBottom := listMax rowBottoms
    fragmentCount := row.length
    textLength := rowText.length }

/-- `_apply_row_box_filters` (lines 294-349).  Note the source's order of
the two early returns: the no-filters check (line 304, keep) comes BEFORE
the empty-row check (line 308, drop). -/
def applyRowBoxFilters (rowFilters : List RowFilter) (row : List Frag)
    (pageInfo : PageInfo) : Bool :=
  if rowFilters.isEmpty then true
  else if row.isEmpty then false
  else
    let rowData := buildRowData row
    rowFilters.all (fun f => ((f rowData pageInfo).getD true))

/-! ## Canonical document model and page dimensions
    (`Word`/`Line`/`Region` dataclasses, lines 56-107, and
    `_update_page_dimensions`, lines 351-384). -/

/-- `Word` (lines 56-60). -/
structure Word where
  word : String
  boundingBox : BoundingBox
deriving DecidableEq

/-- `Line` (lines 70-77). -/
structure Line where
  text : String
  words : List Word
  boundingBox : BoundingBox
  textHeight : Int
  style : String
deriving DecidableEq

/-- `Region` (lines 91-97). -/
structure Region where
  lang : String
  dir : String
  lines : List Line
  boundingBox : BoundingBox
deriving DecidableEq

/-- All bounding boxes of one region in traversal order: the region's own
box, then for each line its box followed by its words' boxes.  (The
source's `if region.boundingBox:` guards are always true: a dataclass
instance is truthy in Python.) -/
def regionBoxes (r : Region) : List BoundingBox :=
  r.boundingBox ::
    (r.lines.map (fun l => l.boundingBox :: l.words.map (fun w => w.boundingBox))).flatten

/-- All bounding boxes of a region list, in traversal order. -/
def allBoxes (regions : List Region) : List BoundingBox :=
  (regions.map regionBoxes).flatten

/-- `_update_page_dimensions` (lines 351-384): with a non-empty region list
it sets `page_width`/`page_height` to the extent of the union of all
region, line and word boxes; with an empty list it leaves them unchanged. -/
def OCRJsonToTextLine.updatePageDimensions (st : OCRJsonToTextLine)
    (regions : List Region) : OCRJsonToTextLine :=
  if regions.isEmpty then st
  else
    let boxes := allBoxes regions
    let allXs := boxes.map (fun b => b.x)
    let allYs := boxes.map (fun b => b.y)
    let allRights := boxes.map (fun b => b.x + b.width)
    let allBottoms := boxes.map (fun b => b.y + b.height)
    if allXs.isEmpty then st
    else
      { st with
        pageWidth := listMax allRights - listMin allXs
        pageHeight := listMax allBottoms - listMin allYs }

/-- The `box_data` dict built for one horizontal line (lines 556-565);
`bbox = line.boundingBox or region.boundingBox` always picks the line's box
because a dataclass instance is truthy. -/
def lineBoxData (l : Line) : BoxData :=
  ⟨pyStripStr l.text, l.boundingBox.x, l.boundingBox.y,
    l.boundingBox.width, l.boundingBox.height⟩

/-- `_collect_horizontal_fragments` (lines 536-583): first update the page
dimensions from the FULL region list, then walk the horizontal regions'
non-empty lines, keep those passing the box filters, and flatten them into
fragments.  Returns the updated converter state (the source mutates
`self.page_width`/`self.page_height`) together with the fragments. -/
def collectHorizontalFragments (st : OCRJsonToTextLine)
    (boxFilters : List BoxFilter) (regions : List Region) :
    OCRJsonToTextLine × List Frag :=
  let st1 := st.updatePageDimensions regions
  let pageInfo : PageInfo := ⟨st1.pageWidth, st1.pageHeight⟩
  let frags :=
    (regions.map (fun r =>
      if r.dir ≠ "h" then []
      else
        r.lines.filterMap (fun l =>
          if l.text = "" then none
          else if applyBoxFilters boxFilters (lineBoxData l) pageInfo then
            some (⟨pyStripStr l.text, l.boundingBox.x, l.boundingBox.y,
              l.boundingBox.width, l.boundingBox.height⟩ : Frag)
          else none))).flatten
  (st1, frags)

/-- The sequence of `page_info` values passed to successive fragment-level
predicate calls for one box by `_apply_box_filters`: one entry per invoked
predicate, stopping after a predicate returns `False` (a raising predicate
is invoked and the loop continues). -/
def filterCallInfos : List BoxFilter → BoxData → PageInfo → List PageInfo
  | [], _, _ => []
  | f :: rest, boxData, pageInfo =>
    pageInfo ::
      (match f boxData pageInfo with
       | some false => []
       | _ => filterCallInfos rest boxData pageInfo)

/-- The `page_info` values received by every fragment-level predicate call
made during `_collect_horizontal_fragments`. -/
def collectBoxFilterCalls (st : OCRJsonToTextLine)
    (boxFilters : List BoxFilter) (regions : List Region) : List PageInfo :=
  let st1 := st.updatePageDimensions regions
  let pageInfo : PageInfo := ⟨st1.pageWidth, st1.pageHeight⟩
  (regions.map (fun r =>
    if r.dir ≠ "h" then []
    else
      (r.lines.map (fun l =>
        if l.text = "" then []
        else filterCallInfos boxFilters (lineBoxData l) pageInfo)).flatten)).flatten

/-- The `page_info` values received by every fragment-level predicate call
made during `convert_regions_to_text_lines` (lines 420-502): first the
calls inside `_collect_horizontal_fragments` (line 574, invoked
unconditionally at line 425, which runs `_update_page_dimensions` at line
543), then the calls of the vertical-text loop (line 495), which reads the
same `self.page_width`/`self.page_height` state — nothing changes the page
dimensions between the two sites.  In the vertical loop the regions are
sorted by x, then each region's lines by x, and the filter chain is
consulted for every line (the `if line.boundingBox:` guard is always true
for a dataclass); the `box_data` dict built at lines 477-486 carries the
same stripped text and line-box geometry as `lineBoxData`. -/
def convertRegionsBoxFilterCalls (st : OCRJsonToTextLine)
    (boxFilters : List BoxFilter) (regions : List Region) : List PageInfo :=
  let st1 := (collectHorizontalFragments st boxFilters regions).1
  let verticalRegions :=
    List.insertionSort (fun a b => a.boundingBox.x ≤ b.boundingBox.x)
      (regions.filter (fun r => r.dir == "v"))
  collectBoxFilterCalls st boxFilters regions ++
    (verticalRegions.map (fun r =>
      ((List.insertionSort (fun a b : Line => a.boundingBox.x ≤ b.boundingBox.x)
          r.lines).map (fun l =>
        filterCallInfos boxFilters (lineBoxData l)
          ⟨st1.pageWidth, st1.pageHeight⟩)).flatten)).flatten

/-! ## The RapidOCR adapter
    (`_convert_rapidocr_to_regions`, lines 774-871).  A RapidOCR item is a
    dict that should carry a `txt` string and a `box` list of four
    two-element points; items of any other shape are silently dropped. -/

/-- One element of the RapidOCR result array; `none` fields model missing
keys (`'txt' not in item` / `'box' not in item`). -/
structure RapidItem where
  txt : Option String
  box : Option (List (List Int))
deriving DecidableEq

/-- The structural checks of lines 782-818 for one item, returning the
`box_data` dict of the item's axis-aligned bounding box, or `none` when the
item is dropped before the filters are consulted. -/
def rapidItemBoxData (item : RapidItem) : Option BoxData :=
  match item.txt, item.box with
  | some t, some pts =>
    let text := pyStripStr t
    if text = "" then none
    else if pts.length ≠ 4 || !(pts.all (fun p => p.length == 2)) then none
    else
      let xs := pts.map (fun p => p.getD 0 0)
      let ys := pts.map (fun p => p.getD 1 0)
      let minX := listMin xs
      let maxX := listMax xs
      let minY := listMin ys
      let maxY := listMax ys
      some ⟨text, minX, minY, maxX - minX, maxY - minY⟩
  | _, _ => none

/-- The `page_info` dict built at lines 821-824 for the filter calls inside
`_convert_rapidocr_to_regions`: it is read from the converter state as it
stands on entry (the comment in the source concedes that at this point the
page size may not be known yet). -/
def rapidocrFilterPageInfo (st : OCRJsonToTextLine) : PageInfo :=
  ⟨st.pageWidth, st.pageHeight⟩

/-- The `Line` object built for one surviving RapidOCR item
(lines 830-840). -/
def rapidItemLine (bd : BoxData) : Line :=
  let bbox : BoundingBox := ⟨bd.x, bd.y, bd.width, bd.height⟩
  { text := bd.text
    words := [⟨bd.text, bbox⟩]
    boundingBox := bbox
    textHeight := bbox.height
    style := "" }

/-- `_convert_rapidocr_to_regions` (lines 774-871): structural checks, then
the box filters (with the converter's pre-existing page dimensions), then
the surviving lines are sorted by y and wrapped in a single region whose
box is their union. -/
def convertRapidocrToRegions (st : OCRJsonToTextLine)
    (boxFilters : List BoxFilter) (items : List RapidItem) : List Region :=
  if items.isEmpty then []
  else
    let tempLines := items.filterMap (fun item =>
      match rapidItemBoxData item with
      | none => none
      | some bd =>
        if applyBoxFilters boxFilters bd (rapidocrFilterPageInfo st) then
          some (rapidItemLine bd)
        else none)
    let sortedLines :=
      List.insertionSort (fun a b => a.boundingBox.y ≤ b.boundingBox.y) tempLines
    if sortedLines.isEmpty then []
    else
      let allXs := sortedLines.map (fun l => l.boundingBox.x)
      let allYs := sortedLines.map (fun l => l.boundingBox.y)
      let allRights := sortedLines.map (fun l => l.boundingBox.x + l.boundingBox.width)
      let allBottoms := sortedLines.map (fun l => l.boundingBox.y + l.boundingBox.height)
      let regionBBox : BoundingBox :=
        ⟨listMin allXs, listMin allYs,
          listMax allRights - listMin allXs, listMax allBottoms - listMin allYs⟩
      [{ lang := "zh", dir := "h", lines := sortedLines, boundingBox := regionBBox }]

/-- The `page_info` values received by every fragment-level predicate call
made during `_convert_rapidocr_to_regions`. -/
def rapidocrBoxFilterCalls (st : OCRJsonToTextLine)
    (boxFilters : List BoxFilter) (items : List RapidItem) : List PageInfo :=
  (items.map (fun item =>
    match rapidItemBoxData item with
    | none => []
    | some bd => filterCallInfos boxFilters bd (rapidocrFilterPageInfo st))).flatten

/-! ## Dialect auto-detection
    (`OCRJsonToTextLine.convert_json_to_text`, lines 1044-1068). -/

/-- Just enough of Python's value universe to express the shapes the
dispatcher discriminates on. -/
inductive PyVal where
  | pdict : List (String × PyVal) → PyVal
  | plist : List PyVal → PyVal
  | pstr : String → PyVal
  | pint : Int → PyVal
  | pnone : PyVal

/-- `'k' in d` for a Python dict. -/
def hasKey (kvs : List (String × PyVal)) (k : String) : Bool :=
  kvs.any (fun kv => kv.1 == k)

/-- The three recognized OCR JSON dialects. -/
inductive OcrDialect where
  | youdao
  | rapidocr
  | pymupdf
deriving DecidableEq

/-- The dispatch logic of `convert_json_to_text` (lines 1044-1068), with the
chosen handler represented by its dialect tag: a list whose first element is
a dict carrying `width`, `height` and `blocks` goes to the pymupdf handler,
any other list to the RapidOCR handler, a dict with `Result` to the youdao
handler; everything else raises `ValueError` (embedded as `Except.error`) —
the exception propagates, no failure string is returned. -/
def convertJsonToTextDispatch (j : PyVal) : Except String OcrDialect :=
  match j with
  | .plist items =>
    match items with
    | (PyVal.pdict kvs) :: _ =>
      if hasKey kvs "width" && hasKey kvs "height" && hasKey kvs "blocks" then
        Except.ok OcrDialect.pymupdf
      else Except.ok OcrDialect.rapidocr
    | _ => Except.ok OcrDialect.rapidocr
  | .pdict kvs =>
    if hasKey kvs "Result" then Except.ok OcrDialect.youdao
    else Except.error "不支持的JSON格式"
  | _ => Except.error "不支持的JSON格式"

/-- The specification's own description of the auto-detection (spec §4.1),
written from its words for the refinement comparison: a dict with a
top-level `Result` key is the cloud dialect; a list whose first element has
`width`, `height` and `blocks` keys is the PDF-block dialect; any other
list is the flat-box dialect; unrecognized shapes fail with a
`FormatError`. -/
def specFormatDetect (j : PyVal) : Except String OcrDialect :=
  match j with
  | .pdict kvs =>
    if hasKey kvs "Result" then Except.ok OcrDialect.youdao
    else Except.error "FormatError"
  | .plist items =>
    match items.head? with
    | some (PyVal.pdict kvs) =>
      if hasKey kvs "width" && hasKey kvs "height" && hasKey kvs "blocks" then
        Except.ok OcrDialect.pymupdf
      else Except.ok OcrDialect.rapidocr
    | _ => Except.ok OcrDialect.rapidocr
  | _ => Except.error "FormatError"

/-! ## The page-body (margin) detector
    (src/detect_page_body.py).  The binary image enters the boundary scan
    only through the per-position ink-density values, so the scan is
    embedded over an abstract density function `Nat → ℚ` (the value of
    `_calculate_black_density_horizontal`/`_vertical` at each position; an
    all-white image has density 0 everywhere since it contains no black
    pixels).  The two scan directions (`'left'`/`'top'` inward-decreasing,
    `'right'`/`'bottom'` outward-increasing) are a Boolean, and `limit`
    stands for the image width (horizontal scans) or height (vertical
    scans). -/

/-- `range(initial_pos, 0, -1)`: the positions `initial_pos, ..., 1`. -/
def descendingRange : Nat → List Nat
  | 0 => []
  | n + 1 => (n + 1) :: descendingRange n

/-- The scanned positions of `_detect_boundary_sliding_window`
(lines 227-254): the search range in scan order, with positions failing
`window_size <= pos <= limit - window_size` skipped. -/
def scanPositions (initialPos : Nat) (ascending : Bool) (limit : Nat)
    (windowSize : Nat) : List Nat :=
  let searchRange :=
    if ascending then List.range' initialPos (limit - initialPos)
    else descendingRange initialPos
  searchRange.filter (fun pos =>
    decide (windowSize ≤ pos) && decide (pos + windowSize ≤ limit))

/-- `_calculate_gradients` (lines 320-343): forward difference at the first
index, backward at the last, central difference elsewhere. -/
def calculateGradients (densities : List ℚ) : List ℚ :=
  if densities.length < 2 then List.replicate densities.length 0
  else
    (List.range densities.length).map (fun i =>
      if i = 0 then densities.getD 1 0 - densities.getD 0 0
      else if i = densities.length - 1 then
        densities.getD i 0 - densities.getD (i - 1) 0
      else (densities.getD (i + 1) 0 - densities.getD (i - 1) 0) / 2)

/-- `np.argmax`: the first index attaining the maximum (0 on `[]`). -/
def argmaxIdx (l : List ℚ) : Nat :=
  match l with
  | [] => 0
  | x :: xs =>
    (xs.foldl
      (fun (best : Nat × ℚ × Nat) v =>
        let (bi, bv, i) := best
        if bv < v then (i, v, i + 1) else (bi, bv, i + 1))
      (0, x, 1)).1

/-- `_find_gradient_peak` (lines 345-371): the position of the maximal
absolute gradient when it strictly exceeds the threshold, otherwise the
first scanned position. -/
def findGradientPeak (positions : List Nat) (gradients : List ℚ)
    (gradientThreshold : ℚ) : Nat :=
  if positions.isEmpty || gradients.isEmpty then positions.headD 0
  else
    let absGradients := gradients.map (fun g => |g|)
    let maxGradIdx := argmaxIdx absGradients
    if gradientThreshold < absGradients.getD maxGradIdx 0 then
      positions.getD maxGradIdx 0
    else positions.headD 0

/-- `_detect_boundary_sliding_window` (lines 208-268): scan, compute
densities, bail out to the initial position when fewer than three
positions were scanned, otherwise locate the gradient peak. -/
def detectBoundarySlidingWindow (dens : Nat → ℚ) (initialPos : Nat)
    (ascending : Bool) (limit : Nat) (windowSize : Nat)
    (gradientThreshold : ℚ) : Nat :=
  let positions := scanPositions initialPos ascending limit windowSize
  let densities := positions.map dens
  if densities.length < 3 then initialPos
  else findGradientPeak positions (calculateGradients densities) gradientThreshold

/-! # Theorems -/

/-! ## C7 / C8: the box-string parser -/

theorem parseAllInts_length :
    ∀ {ps : List (List Char)} {l : List Int},
      parseAllInts ps = some l → l.length = ps.length := by
  intro ps
  induction ps with
  | nil => intro l h; simp [parseAllInts] at h; simp [← h]
  | cons p rest ih =>
    intro l h
    simp only [parseAllInts] at h
    cases hp : parsePyInt p with
    | none => rw [hp] at h; exact absurd h (by simp)
    | some n =>
      cases hr : parseAllInts rest with
      | none => rw [hp, hr] at h; exact absurd h (by simp)
      | some tl =>
        rw [hp, hr] at h
        cases h
        simp [ih hr]

/-- C7 (counterexample): `"1,2,3,4,"` is neither of the `"x,y,w,h"` form
(it has five comma-separated fields, the last empty) nor an 8-coordinate
polygon, yet `BoundingBox.from_string` does not return the zero box for it:
the empty field is discarded and the remaining four integers are accepted. -/
theorem fromString_malformed_not_zero :
    formXYWH "1,2,3,4," = false ∧ formPoly8 "1,2,3,4," = false ∧
      BoundingBox.fromString "1,2,3,4," = ⟨1, 2, 3, 4⟩ ∧
      BoundingBox.fromString "1,2,3,4," ≠ ⟨0, 0, 0, 0⟩ := by
  decide

/-- C7 (amended): after the source's preprocessing — strip each
comma-separated field and drop the empty ones — exactly four integer fields
parse to exactly those four integers; exactly eight integer fields parse to
the axis-aligned bounding rectangle of the four corner points; every other
string parses to the zero box, without raising (the parser is total). -/
theorem fromString_spec (s : String) :
    (∀ a b c d : Int,
      parseAllInts (boxParts s) = some [a, b, c, d] →
        BoundingBox.fromString s = ⟨a, b, c, d⟩)
  ∧ (∀ x1 y1 x2 y2 x3 y3 x4 y4 : Int,
      parseAllInts (boxParts s) = some [x1, y1, x2, y2, x3, y3, x4, y4] →
        BoundingBox.fromString s =
          ⟨min (min x1 x2) (min x3 x4), min (min y1 y2) (min y3 y4),
            max (max x1 x2) (max x3 x4) - min (min x1 x2) (min x3 x4),
            max (max y1 y2) (max y3 y4) - min (min y1 y2) (min y3 y4)⟩)
  ∧ ((∀ l : List Int,
        parseAllInts (boxParts s) = some l → l.length ≠ 4 ∧ l.length ≠ 8) →
      BoundingBox.fromString s = ⟨0, 0, 0, 0⟩) := by
  refine ⟨?_, ?_, ?_⟩
  · intro a b c d h
    have hlen : (boxParts s).length = 4 := by
      have := parseAllInts_length h
      simpa using this.symm
    simp [BoundingBox.fromString, hlen, h]
  · intro x1 y1 x2 y2 x3 y3 x4 y4 h
    have hlen : (boxParts s).length = 8 := by
      have := parseAllInts_length h
      simpa using this.symm
    simp [BoundingBox.fromString, hlen, h]
  · intro h
    cases hp : parseAllInts (boxParts s) with
    | none => simp [BoundingBox.fromString, hp, ite_self]
    | some l =>
      obtain ⟨h4, h8⟩ := h l hp
      have hlen := parseAllInts_length hp
      have hq4 : (boxParts s).length ≠ 4 := fun hc => h4 (hlen.trans hc)
      have hq8 : (boxParts s).length ≠ 8 := fun hc => h8 (hlen.trans hc)
      simp [BoundingBox.fromString, hq4, hq8]

/-- C7 (witness): a concrete four-field and a concrete eight-field string
run through the amended round-trip statement. -/
theorem fromString_spec_witness :
    BoundingBox.fromString "7,8,9,10" = ⟨7, 8, 9, 10⟩ ∧
      BoundingBox.fromString "0,0,4,0,4,2,0,2" = ⟨0, 0, 4, 2⟩ := by
  constructor
  · exact (fromString_spec "7,8,9,10").1 7 8 9 10 (by decide)
  · exact (fromString_spec "0,0,4,0,4,2,0,2").2.1 0 0 4 0 4 2 0 2 (by decide)

/-- C8 (counterexample): the 4-component form copies negative components
verbatim, so a parsed box can violate the claimed invariant
`width >= 0 ∧ height >= 0`. -/
theorem fromString_negative_width :
    BoundingBox.fromString "0,0,-1,-1" = ⟨0, 0, -1, -1⟩ ∧
      (BoundingBox.fromString "0,0,-1,-1").width < 0 ∧
      (BoundingBox.fromString "0,0,-1,-1").height < 0 := by
  decide

/-- C8 (amended): every box produced by `from_string` OUTSIDE the verbatim
four-integer branch — i.e. from the 8-coordinate polygon branch or from the
zero-box fallback — has non-negative width and height; the four-integer
branch copies the given components unchecked. -/
theorem fromString_nonneg_outside_quad (s : String)
    (h : isQuadParts s = false) :
    0 ≤ (BoundingBox.fromString s).width ∧
      0 ≤ (BoundingBox.fromString s).height := by
  by_cases h4 : (boxParts s).length = 4
  · cases hp : parseAllInts (boxParts s) with
    | none => simp [BoundingBox.fromString, h4, hp]
    | some l =>
      have hlen := parseAllInts_length hp
      rw [h4] at hlen
      simp [isQuadParts, hp, hlen] at h
  · by_cases h8 : (boxParts s).length = 8
    · cases hp : parseAllInts (boxParts s) with
      | none => simp [BoundingBox.fromString, h4, h8, hp]
      | some l =>
        have hlen := parseAllInts_length hp
        rw [h8] at hlen
        rcases l with _ | ⟨a1, _ | ⟨a2, _ | ⟨a3, _ | ⟨a4, _ | ⟨a5, _ | ⟨a6, _ |
          ⟨a7, _ | ⟨a8, _ | ⟨a9, t⟩⟩⟩⟩⟩⟩⟩⟩⟩ <;> simp at hlen
        simp only [BoundingBox.fromString, if_neg h4, if_pos h8, hp]
        constructor <;> omega
    · simp [BoundingBox.fromString, h4, h8]

/-- C8 (witness): a three-field string takes the zero-box fallback, whose
width and height are non-negative. -/
theorem fromString_nonneg_outside_quad_witness :
    isQuadParts "1,2,3" = false ∧
      0 ≤ (BoundingBox.fromString "1,2,3").width ∧
      0 ≤ (BoundingBox.fromString "1,2,3").height := by
  refine ⟨by decide, ?_, ?_⟩
  · exact (fromString_nonneg_outside_quad "1,2,3" (by decide)).1
  · exact (fromString_nonneg_outside_quad "1,2,3" (by decide)).2

/-! ## C3: validation of `char_height` -/

/-- C3 (counterexample): the constructor path does NOT reject a non-positive
`char_height`: `OCRJsonToTextLine.__init__` (a total function in the
embedding — it raises nothing) silently stores `char_height = -1`, so no
fatal configuration error is raised on the construction path. -/
theorem init_accepts_nonpositive_char_height :
    (OCRJsonToTextLine.init 300 (-1) (3/2)).charHeight = -1 ∧
      ¬(0 < (OCRJsonToTextLine.init 300 (-1) (3/2)).charHeight) := by
  constructor
  · rfl
  · norm_num [OCRJsonToTextLine.init]

/-- C3 (amended): a non-positive `char_height` is rejected immediately with
a `ValueError` only on the `set_layout_params` path; the constructor stores
the value unvalidated (an error can only surface later, in the layout
computations that divide by it). -/
theorem setLayoutParams_rejects_nonpositive (st : OCRJsonToTextLine)
    (dpi : Option Int) (mult : Option ℚ) (ch : ℚ) (dpi0 : Int) (mult0 : ℚ)
    (h : ch ≤ 0) :
    st.setLayoutParams dpi (some ch) mult =
        Except.error "char_height必须大于0，不能小于等于0"
  ∧ (OCRJsonToTextLine.init dpi0 ch mult0).charHeight = ch := by
  constructor
  · simp [OCRJsonToTextLine.setLayoutParams, h]
  · rfl

/-- C3 (witness): the amended statement at `char_height = 0` on a freshly
constructed converter. -/
theorem setLayoutParams_rejects_nonpositive_witness :
    (OCRJsonToTextLine.init 300 50 (3/2)).setLayoutParams none (some 0) none =
        Except.error "char_height必须大于0，不能小于等于0"
  ∧ (OCRJsonToTextLine.init 300 0 (3/2)).charHeight = 0 := by
  have h := setLayoutParams_rejects_nonpositive
    (OCRJsonToTextLine.init 300 50 (3/2)) none none 0 300 (3/2) (by norm_num)
  exact ⟨h.1, h.2⟩

/-! ## C4: dialect auto-detection and the failure mode of unrecognized
    shapes -/

/-- C4 (counterexample): a dict without a `Result` key is an unrecognized
shape, and `convert_json_to_text` RAISES `ValueError` for it (the exception
propagates to the caller); it does not return a descriptive failure string
— no string is returned at all. -/
theorem dispatch_unrecognized_raises :
    convertJsonToTextDispatch (PyVal.pdict []) =
        Except.error "不支持的JSON格式"
  ∧ (convertJsonToTextDispatch (PyVal.pdict [])).toOption = none :=
  ⟨rfl, rfl⟩

/-- C4 (amended): the dispatcher follows the documented discriminators
exactly — it recognises the same inputs as the specification's detector and
assigns them the same dialect — but an unrecognized shape makes it raise
`ValueError("不支持的JSON格式")`, which propagates; the conversion is not
aborted by returning a failure string (the `"转换失败: ..."` strings are
returned only by the per-dialect handlers, which are reached exclusively
for recognized shapes). -/
theorem dispatch_follows_spec_discriminators (j : PyVal) :
    (convertJsonToTextDispatch j).toOption = (specFormatDetect j).toOption
  ∧ ((specFormatDetect j).toOption = none →
      convertJsonToTextDispatch j = Except.error "不支持的JSON格式") := by
  cases j with
  | pdict kvs =>
    by_cases h : hasKey kvs "Result"
    · simp [convertJsonToTextDispatch, specFormatDetect, h, Except.toOption]
    · simp [convertJsonToTextDispatch, specFormatDetect, h, Except.toOption]
  | plist items =>
    cases items with
    | nil => simp [convertJsonToTextDispatch, specFormatDetect, Except.toOption]
    | cons a rest =>
      cases a with
      | pdict kvs =>
        by_cases h :
            (hasKey kvs "width" && hasKey kvs "height" && hasKey kvs "blocks") = true
        · simp [convertJsonToTextDispatch, specFormatDetect, Except.toOption, h]
        · simp only [Bool.and_eq_true] at h
          simp [convertJsonToTextDispatch, specFormatDetect, Except.toOption, h]
      | plist l =>
        simp [convertJsonToTextDispatch, specFormatDetect, Except.toOption]
      | pstr s =>
        simp [convertJsonToTextDispatch, specFormatDetect, Except.toOption]
      | pint n =>
        simp [convertJsonToTextDispatch, specFormatDetect, Except.toOption]
      | pnone =>
        simp [convertJsonToTextDispatch, specFormatDetect, Except.toOption]
  | pstr s => simp [convertJsonToTextDispatch, specFormatDetect, Except.toOption]
  | pint n => simp [convertJsonToTextDispatch, specFormatDetect, Except.toOption]
  | pnone => simp [convertJsonToTextDispatch, specFormatDetect, Except.toOption]

/-- C4 (witness): the amended statement applied to a bare string, an
unrecognized top-level shape. -/
theorem dispatch_follows_spec_discriminators_witness :
    (convertJsonToTextDispatch (PyVal.pstr "x")).toOption =
        (specFormatDetect (PyVal.pstr "x")).toOption
  ∧ convertJsonToTextDispatch (PyVal.pstr "x") =
        Except.error "不支持的JSON格式" :=
  ⟨(dispatch_follows_spec_discriminators (PyVal.pstr "x")).1,
    (dispatch_follows_spec_discriminators (PyVal.pstr "x")).2 rfl⟩

/-! ## C5: the empty-row check of the row-level filter stage -/

/-- C5 (counterexample): with NO row predicates configured the early
no-filters return comes first, so an empty row is KEPT, not rejected: the
claimed unconditional rejection does not happen on the predicate-free
configuration. -/
theorem empty_row_kept_without_filters :
    applyRowBoxFilters [] [] ⟨0, 0⟩ = true := rfl

/-- C5 (amended): the empty-row rejection happens before any predicate runs
only when at least one row predicate is configured; with an empty predicate
list every row — the empty row included — is kept by the early
no-filters return. -/
theorem applyRowBoxFilters_empty_row (rowFilters : List RowFilter)
    (row : List Frag) (pageInfo : PageInfo) :
    (rowFilters ≠ [] → applyRowBoxFilters rowFilters [] pageInfo = false)
  ∧ applyRowBoxFilters [] row pageInfo = true := by
  constructor
  · intro h
    simp [applyRowBoxFilters, h]
  · simp [applyRowBoxFilters]

/-- C5 (witness): with one (always-true) predicate configured the empty row
is rejected; with none it is kept. -/
theorem applyRowBoxFilters_empty_row_witness :
    applyRowBoxFilters [fun _ _ => some true] [] ⟨0, 0⟩ = false
  ∧ applyRowBoxFilters [] [⟨"t", 0, 0, 1, 1⟩] ⟨0, 0⟩ = true :=
  ⟨(applyRowBoxFilters_empty_row [fun _ _ => some true] [⟨"t", 0, 0, 1, 1⟩]
      ⟨0, 0⟩).1 (List.cons_ne_nil _ _),
    (applyRowBoxFilters_empty_row [fun _ _ => some true] [⟨"t", 0, 0, 1, 1⟩]
      ⟨0, 0⟩).2⟩

/-! ## C1: blank lines between consecutive rows -/

/-- C1 (counterexample): with `line_spacing = 2`, a previous row whose
lowest edge is 10 and a current row whose highest edge is 13 (gap 3 px),
the code emits `int(3/2) = 1` blank line, not `round(3/2) = 2` as the claim
states (the function's own docstring says `floor`). -/
theorem computeBlankLines_not_round :
    rowBottom [⟨"p", 0, 0, 10, 10⟩] = 10
  ∧ rowTop [⟨"c", 0, 13, 10, 10⟩] = 13
  ∧ computeBlankLinesBetween [⟨"p", 0, 0, 10, 10⟩] [⟨"c", 0, 13, 10, 10⟩] 2 = 1
  ∧ round ((13 - 10 : ℚ) / 2) = 2 := by
  refine ⟨rfl, rfl, ?_, ?_⟩
  · norm_num [computeBlankLinesBetween, rowBottom, rowTop, listMax, listMin,
      pyTruncate]
  · norm_num [round_eq]

/-- C1 (amended): between two non-empty rows and for positive
`line_spacing`, the blank-line count is `⌊gap / line_spacing⌋` — truncation,
as the function's own docstring states — where `gap` is the distance from
the previous row's lowest edge to the current row's highest edge clamped at
zero; a zero or negative gap yields zero blank lines. -/
theorem computeBlankLines_floor (prevRow currRow : List Frag)
    (lineSpacing : ℚ) (hp : prevRow ≠ []) (hc : currRow ≠ [])
    (hs : 0 < lineSpacing) :
    computeBlankLinesBetween prevRow currRow lineSpacing =
      max 0 ⌊max 0 ((rowTop currRow : ℚ) - (rowBottom prevRow : ℚ)) / lineSpacing⌋
  ∧ (rowTop currRow ≤ rowBottom prevRow →
      computeBlankLinesBetween prevRow currRow lineSpacing = 0) := by
  have hkey : computeBlankLinesBetween prevRow currRow lineSpacing =
      max 0 ⌊max 0 ((rowTop currRow : ℚ) - (rowBottom prevRow : ℚ)) / lineSpacing⌋ := by
    have hq : ¬(max 0 ((rowTop currRow : ℚ) - (rowBottom prevRow : ℚ)) / lineSpacing < 0) := by
      push_neg
      exact div_nonneg (le_max_left _ _) hs.le
    simp [computeBlankLinesBetween, hp, hc, hs.not_le, pyTruncate, hq]
  refine ⟨hkey, fun hle => ?_⟩
  rw [hkey]
  have hzero : max 0 ((rowTop currRow : ℚ) - (rowBottom prevRow : ℚ)) = 0 := by
    have : ((rowTop currRow : ℚ) - (rowBottom prevRow : ℚ)) ≤ 0 := by
      rw [sub_nonpos]
      exact_mod_cast hle
    exact max_eq_left this
  rw [hzero]
  simp

/-- C1 (witness): the spec's own example — `line_spacing = 75` and a gap of
150 px gives 2 blank lines, a gap of 10 px gives 0 — together with the
negative-gap clause, via the amended statement. -/
theorem computeBlankLines_floor_witness :
    computeBlankLinesBetween [⟨"p", 0, 0, 10, 100⟩] [⟨"c", 0, 250, 10, 10⟩] 75 = 2
  ∧ computeBlankLinesBetween [⟨"p", 0, 0, 10, 100⟩] [⟨"c", 0, 110, 10, 10⟩] 75 = 0
  ∧ computeBlankLinesBetween [⟨"p", 0, 0, 10, 100⟩] [⟨"c", 0, 50, 10, 10⟩] 75 = 0 := by
  refine ⟨?_, ?_, ?_⟩
  · rw [(computeBlankLines_floor [⟨"p", 0, 0, 10, 100⟩] [⟨"c", 0, 250, 10, 10⟩] 75
      (by decide) (by decide) (by norm_num)).1]
    norm_num [rowBottom, rowTop, listMax, listMin]
  · rw [(computeBlankLines_floor [⟨"p", 0, 0, 10, 100⟩] [⟨"c", 0, 110, 10, 10⟩] 75
      (by decide) (by decide) (by norm_num)).1]
    norm_num [rowBottom, rowTop, listMax, listMin]
  · exact (computeBlankLines_floor [⟨"p", 0, 0, 10, 100⟩] [⟨"c", 0, 50, 10, 10⟩] 75
      (by decide) (by decide) (by norm_num)).2 (by decide)

/-! ## C10 / C2: row clustering -/

theorem sortByX_perm (l : List Frag) : (sortByX l).Perm l :=
  List.perm_insertionSort _ l

theorem sortByX_sorted (l : List Frag) :
    (sortByX l).Pairwise (fun a b => a.x ≤ b.x) :=
  List.sorted_insertionSort _ l

theorem sortByYMid_perm (l : List Frag) : (sortByYMid l).Perm l :=
  List.perm_insertionSort _ l

theorem sortByYMid_sorted (l : List Frag) :
    (sortByYMid l).Pairwise (fun a b => yMid a ≤ yMid b) :=
  List.sorted_insertionSort _ l

theorem groupFinish_foldl_flatten_perm (threshold : ℚ) :
    ∀ (items : List Frag) (groups : List (List Frag)) (cur : List Frag) (mid : ℚ),
      ((groupFinish (items.foldl (groupStep threshold)
        (groups, cur, mid))).flatten).Perm (groups.flatten ++ cur ++ items) := by
  intro items
  induction items with
  | nil =>
    intro groups cur mid
    by_cases hc : cur.isEmpty
    · have hcur : cur = [] := by simpa using hc
      simp [groupFinish, hc, hcur]
    · simp only [List.foldl_nil, groupFinish, hc, if_false, Bool.false_eq_true,
        List.flatten_append, List.flatten_cons, List.flatten_nil, List.append_nil]
      exact List.Perm.append_left groups.flatten (sortByX_perm cur)
  | cons a rest ih =>
    intro groups cur mid
    simp only [List.foldl_cons]
    by_cases hc : cur.isEmpty
    · have hcur : cur = [] := by simpa using hc
      simpa [groupStep, hc, hcur] using ih groups [a] (yMid a)
    · by_cases hj : |yMid a - mid| ≤ threshold
      · have h1 := ih groups (cur ++ [a])
          ((mid * cur.length + yMid a) / (cur.length + 1))
        simp only [groupStep, hc, if_false, Bool.false_eq_true, if_pos hj]
        refine h1.trans (List.Perm.of_eq ?_)
        simp
      · have h1 := ih (groups ++ [sortByX cur]) [a] (yMid a)
        simp only [groupStep, hc, if_false, Bool.false_eq_true, if_neg hj]
        refine h1.trans ?_
        simp only [List.flatten_append, List.flatten_cons, List.flatten_nil,
          List.append_nil, List.append_assoc, List.singleton_append]
        exact List.Perm.append_left groups.flatten
          ((sortByX_perm cur).append_right (a :: rest))

theorem groupFinish_foldl_rows_sorted (threshold : ℚ) :
    ∀ (items : List Frag) (groups : List (List Frag)) (cur : List Frag) (mid : ℚ),
      (∀ g ∈ groups, g.Pairwise (fun a b => a.x ≤ b.x)) →
      ∀ g ∈ groupFinish (items.foldl (groupStep threshold) (groups, cur, mid)),
        g.Pairwise (fun a b => a.x ≤ b.x) := by
  intro items
  induction items with
  | nil =>
    intro groups cur mid hg g hmem
    by_cases hc : cur.isEmpty
    · simp only [List.foldl_nil, groupFinish, hc, if_true] at hmem
      exact hg g hmem
    · simp only [List.foldl_nil, groupFinish, hc, if_false, Bool.false_eq_true,
        List.mem_append, List.mem_singleton] at hmem
      rcases hmem with h | rfl
      · exact hg g h
      · exact sortByX_sorted cur
  | cons a rest ih =>
    intro groups cur mid hg g hmem
    simp only [List.foldl_cons] at hmem
    by_cases hc : cur.isEmpty
    · rw [show groupStep threshold (groups, cur, mid) a = (groups, [a], yMid a) by
        simp [groupStep, hc]] at hmem
      exact ih groups [a] (yMid a) hg g hmem
    · by_cases hj : |yMid a - mid| ≤ threshold
      · rw [show groupStep threshold (groups, cur, mid) a =
            (groups, cur ++ [a], (mid * cur.length + yMid a) / (cur.length + 1)) by
          simp [groupStep, hc, hj]] at hmem
        exact ih groups (cur ++ [a]) _ hg g hmem
      · rw [show groupStep threshold (groups, cur, mid) a =
            (groups ++ [sortByX cur], [a], yMid a) by
          simp [groupStep, hc, hj]] at hmem
        refine ih (groups ++ [sortByX cur]) [a] (yMid a) ?_ g hmem
        intro g2 hg2
        rcases List.mem_append.mp hg2 with h | h
        · exact hg g2 h
        · rw [List.mem_singleton.mp h]
          exact sortByX_sorted cur

/-- C10: for every fragment list and every positive `line_spacing` and
`ratio`, `_group_fragments_by_line` returns a partition of its input —
the concatenation of the returned rows is a permutation of the input (no
fragment is lost or duplicated) — and within every returned row the
fragments are in non-decreasing x order. -/
theorem groupFragmentsByLine_partition (fragments : List Frag)
    (lineSpacing ratio : ℚ) (hs : 0 < lineSpacing) (hr : 0 < ratio) :
    (groupFragmentsByLine fragments lineSpacing ratio).flatten.Perm fragments
  ∧ ∀ row ∈ groupFragmentsByLine fragments lineSpacing ratio,
      row.Pairwise (fun a b => a.x ≤ b.x) := by
  constructor
  · by_cases h : fragments.isEmpty
    · have : fragments = [] := by simpa using h
      simp [groupFragmentsByLine, h, this]
    · rw [groupFragmentsByLine, if_neg (by simpa using h)]
      refine (groupFinish_foldl_flatten_perm _ (sortByYMid fragments) [] [] 0).trans ?_
      simpa using sortByYMid_perm fragments
  · intro row hrow
    by_cases h : fragments.isEmpty
    · rw [groupFragmentsByLine, if_pos h] at hrow
      exact absurd hrow (List.not_mem_nil row)
    · rw [groupFragmentsByLine, if_neg (by simpa using h)] at hrow
      exact groupFinish_foldl_rows_sorted _ (sortByYMid fragments) [] [] 0
        (by intro g hg; exact absurd hg (List.not_mem_nil g)) row hrow

/-- C10 (witness): a two-fragment instance — same text line, given in
reversed x order — is clustered into one row that is a permutation of the
input and is x-sorted. -/
theorem groupFragmentsByLine_partition_witness :
    (groupFragmentsByLine [⟨"b", 5, 0, 1, 1⟩, ⟨"a", 0, 0, 1, 1⟩] 1 1).flatten.Perm
        [⟨"b", 5, 0, 1, 1⟩, ⟨"a", 0, 0, 1, 1⟩]
  ∧ ([⟨"a", 0, 0, 1, 1⟩, ⟨"b", 5, 0, 1, 1⟩] : List Frag).Pairwise
      (fun a b => a.x ≤ b.x) := by
  have h := groupFragmentsByLine_partition [⟨"b", 5, 0, 1, 1⟩, ⟨"a", 0, 0, 1, 1⟩]
    1 1 (by norm_num) (by norm_num)
  exact ⟨h.1, h.2 [⟨"a", 0, 0, 1, 1⟩, ⟨"b", 5, 0, 1, 1⟩] (by decide)⟩

/-- C2 (counterexample): with the engine's line spacing
`max(1, char_height * multiplier) = 1` (so `char_height = 1`,
`multiplier = 1`) and the default ratio `0.8`, two fragments whose vertical
centers are 0 and 1 differ by more than `ratio * line_spacing = 0.8`, yet
they are clustered into the SAME row: the effective threshold is
`max(1.0, ratio * line_spacing)`, not `ratio * line_spacing`. -/
theorem cluster_exceeds_ratio_same_row :
    (4/5 : ℚ) * lineSpacingOf 1 1 <
        |yMid (⟨"b", 0, 1, 0, 0⟩ : Frag) - yMid (⟨"a", 0, 0, 0, 0⟩ : Frag)|
  ∧ groupFragmentsByLine [⟨"a", 0, 0, 0, 0⟩, ⟨"b", 0, 1, 0, 0⟩]
        (lineSpacingOf 1 1) (4/5) =
      [[⟨"a", 0, 0, 0, 0⟩, ⟨"b", 0, 1, 0, 0⟩]] := by
  decide

theorem mem_groupFinish {st : GroupState} {row : List Frag}
    (h : row ∈ groupFinish st) : row ∈ st.1 ∨ row = sortByX st.2.1 := by
  obtain ⟨groups, cur, mid⟩ := st
  by_cases hc : cur.isEmpty
  · simp only [groupFinish, hc, if_true] at h
    exact Or.inl h
  · simp only [groupFinish, hc, Bool.false_eq_true, if_false, List.mem_append,
      List.mem_singleton] at h
    exact h

theorem groupStep_keeps_last (th : ℚ) (st : GroupState) (a : Frag)
    (h : st.2.1 = [] ∨ ∃ b, b ∈ st.2.1 ∧ st.2.2 ≤ yMid b ∧ yMid b ≤ yMid a) :
    a ∈ (groupStep th st a).2.1 ∧ (groupStep th st a).2.2 ≤ yMid a := by
  obtain ⟨groups, cur, mid⟩ := st
  rcases h with h | ⟨b, hb, hmb, hba⟩
  · simp only at h
    simp [groupStep, h]
  · have hcur : ¬cur.isEmpty := by
      simp only [List.isEmpty_iff]
      intro hc
      rw [hc] at hb
      exact absurd hb (List.not_mem_nil b)
    by_cases hj : |yMid a - mid| ≤ th
    · simp only [groupStep, hcur, if_false, Bool.false_eq_true, if_pos hj]
      constructor
      · simp
      · have hma : mid ≤ yMid a := le_trans hmb hba
        have hpos : (0 : ℚ) < (cur.length : ℚ) + 1 := by positivity
        rw [div_le_iff₀ hpos]
        have : mid * (cur.length : ℚ) ≤ yMid a * (cur.length : ℚ) :=
          mul_le_mul_of_nonneg_right hma (by positivity)
        nlinarith
    · simp [groupStep, hcur, hj]

theorem foldl_groupStep_inv (th : ℚ) :
    ∀ (l : List Frag) (f : Frag) (st : GroupState),
      (st.2.1 = [] ∨
        ∃ b, b ∈ st.2.1 ∧ st.2.2 ≤ yMid b ∧ ∀ c ∈ l ++ [f], yMid b ≤ yMid c) →
      (l ++ [f]).Pairwise (fun a b => yMid a ≤ yMid b) →
      f ∈ ((l ++ [f]).foldl (groupStep th) st).2.1 ∧
        ((l ++ [f]).foldl (groupStep th) st).2.2 ≤ yMid f := by
  intro l
  induction l with
  | nil =>
    intro f st h _
    simp only [List.nil_append, List.foldl_cons, List.foldl_nil]
    refine groupStep_keeps_last th st f ?_
    rcases h with h | ⟨b, hb, hmb, hball⟩
    · exact Or.inl h
    · exact Or.inr ⟨b, hb, hmb, hball f (by simp)⟩
  | cons a l ih =>
    intro f st h hpair
    simp only [List.cons_append, List.foldl_cons]
    have hstep := groupStep_keeps_last th st a (by
      rcases h with h | ⟨b, hb, hmb, hball⟩
      · exact Or.inl h
      · exact Or.inr ⟨b, hb, hmb, hball a (by simp)⟩)
    have hpair2 : (l ++ [f]).Pairwise (fun a b => yMid a ≤ yMid b) := by
      rw [List.cons_append, List.pairwise_cons] at hpair
      exact hpair.2
    refine ih f (groupStep th st a) (Or.inr ⟨a, hstep.1, hstep.2, ?_⟩) hpair2
    intro c hc
    rw [List.cons_append, List.pairwise_cons] at hpair
    exact hpair.1 c hc

theorem foldl_groupStep_mem (th : ℚ) :
    ∀ (l : List Frag) (st : GroupState),
      (∀ gp ∈ (l.foldl (groupStep th) st).1,
        gp ∈ st.1 ∨ ∀ a ∈ gp, a ∈ st.2.1 ++ l) ∧
      (∀ a ∈ (l.foldl (groupStep th) st).2.1, a ∈ st.2.1 ++ l) := by
  intro l
  induction l with
  | nil =>
    intro st
    constructor
    · intro gp hgp
      exact Or.inl (by simpa using hgp)
    · intro a ha
      simpa using ha
  | cons b l ih =>
    intro st
    obtain ⟨groups, cur, mid⟩ := st
    simp only [List.foldl_cons]
    by_cases hc : cur.isEmpty
    · have hcur : cur = [] := by simpa using hc
      have hstep : groupStep th (groups, cur, mid) b = (groups, [b], yMid b) := by
        simp [groupStep, hc]
      rw [hstep]
      obtain ⟨ihg, ihc⟩ := ih (groups, [b], yMid b)
      constructor
      · intro gp hgp
        rcases ihg gp hgp with h | h
        · exact Or.inl h
        · refine Or.inr fun a ha => ?_
          have := h a ha
          simp only [hcur, List.nil_append]
          simpa using this
      · intro a ha
        have := ihc a ha
        simp only [hcur, List.nil_append]
        simpa using this
    · by_cases hj : |yMid b - mid| ≤ th
      · have hstep : groupStep th (groups, cur, mid) b =
            (groups, cur ++ [b],
              (mid * cur.length + yMid b) / (cur.length + 1)) := by
          simp [groupStep, hc, hj]
        rw [hstep]
        obtain ⟨ihg, ihc⟩ := ih (groups, cur ++ [b], _)
        constructor
        · intro gp hgp
          rcases ihg gp hgp with h | h
          · exact Or.inl h
          · refine Or.inr fun a ha => ?_
            have := h a ha
            simp only [List.append_assoc, List.singleton_append] at this ⊢
            exact this
        · intro a ha
          have := ihc a ha
          simp only [List.append_assoc, List.singleton_append] at this ⊢
          exact this
      · have hstep : groupStep th (groups, cur, mid) b =
            (groups ++ [sortByX cur], [b], yMid b) := by
          simp [groupStep, hc, hj]
        rw [hstep]
        obtain ⟨ihg, ihc⟩ := ih (groups ++ [sortByX cur], [b], yMid b)
        constructor
        · intro gp hgp
          rcases ihg gp hgp with h | h
          · rcases List.mem_append.mp h with h2 | h2
            · exact Or.inl h2
            · refine Or.inr fun a ha => ?_
              have : a ∈ sortByX cur := by
                rw [List.mem_singleton.mp h2] at ha
                exact ha
              have : a ∈ cur := (sortByX_perm cur).subset this
              exact List.mem_append.mpr (Or.inl this)
          · refine Or.inr fun a ha => ?_
            have := h a ha
            simp only [List.singleton_append] at this
            exact List.mem_append.mpr (Or.inr this)
        · intro a ha
          have := ihc a ha
          simp only [List.singleton_append] at this
          exact List.mem_append.mpr (Or.inr this)

/-- C2 (amended): the clustering guarantee that actually holds is for
fragments ADJACENT in the vertical-center-sorted order and for the
effective threshold `max(1.0, ratio * line_spacing)`: if two such
fragments' centers differ by more than that threshold, no returned Row
contains both.  (Two arbitrary fragments can share a Row despite an
arbitrarily large center difference, through chains of intermediate
fragments that drag the running mean; and differences in
`(ratio * line_spacing, max(1, ratio * line_spacing)]` never split.) -/
theorem cluster_gap_separates (fragments l1 l2 : List Frag) (f g : Frag)
    (lineSpacing ratio : ℚ) (hnd : fragments.Nodup)
    (hsort : sortByYMid fragments = l1 ++ f :: g :: l2)
    (hgap : max 1 (ratio * lineSpacing) < yMid g - yMid f) :
    ∀ row ∈ groupFragmentsByLine fragments lineSpacing ratio,
      ¬(f ∈ row ∧ g ∈ row) := by
  intro row hrow ⟨hfr, hgr⟩
  have hfrne : ¬fragments.isEmpty := by
    simp only [List.isEmpty_iff]
    intro hemp
    rw [hemp] at hsort
    have : (sortByYMid []).length = (l1 ++ f :: g :: l2).length := by rw [hsort]
    simp [sortByYMid] at this
    omega
  have hndsort : (l1 ++ f :: g :: l2).Nodup := by
    rw [← hsort]
    exact ((sortByYMid_perm fragments).nodup_iff).mpr hnd
  have hgl1 : g ∉ l1 := by
    intro hmem
    have hdisj := (List.nodup_append.mp hndsort).2.2
    exact hdisj hmem (by simp)
  have hfg : f ≠ g := by
    intro hfg
    rw [hfg] at hgap
    simp only [sub_self] at hgap
    have : (1 : ℚ) ≤ max 1 (ratio * lineSpacing) := le_max_left _ _
    linarith
  have hfl2 : f ∉ l2 := by
    have hn2 := (List.nodup_append.mp hndsort).2.1
    rw [List.nodup_cons] at hn2
    have := hn2.1
    simp only [List.mem_cons] at this
    intro hmem
    exact this (Or.inr hmem)
  have hgf : g ∉ l1 ++ [f] := by
    intro hmem
    rcases List.mem_append.mp hmem with h | h
    · exact hgl1 h
    · exact hfg (List.mem_singleton.mp h).symm
  -- unfold the clustering run on the sorted list
  have hfe : fragments.isEmpty = false := by simpa using hfrne
  have hsplit : l1 ++ f :: g :: l2 = (l1 ++ [f]) ++ g :: l2 := by simp
  simp only [groupFragmentsByLine, hfe, Bool.false_eq_true, if_false, hsort]
    at hrow
  rw [hsplit, List.foldl_append, List.foldl_cons] at hrow
  set S1 := (l1 ++ [f]).foldl (groupStep (max 1 (ratio * lineSpacing))) ([], [], 0)
    with hS1
  have hsorted : ((l1 ++ [f]) ++ g :: l2).Pairwise (fun a b => yMid a ≤ yMid b) := by
    rw [← hsplit, ← hsort]
    exact sortByYMid_sorted fragments
  have hpair1 : (l1 ++ [f]).Pairwise (fun a b => yMid a ≤ yMid b) :=
    (List.pairwise_append.mp hsorted).1
  have hinv := foldl_groupStep_inv (max 1 (ratio * lineSpacing)) l1 f
    ([], [], 0) (Or.inl rfl) hpair1
  rw [← hS1] at hinv
  obtain ⟨hfS1, hmS1⟩ := hinv
  -- membership bounds for the state after the prefix
  have hmem1 := foldl_groupStep_mem (max 1 (ratio * lineSpacing)) (l1 ++ [f])
    ([], [], 0)
  rw [← hS1] at hmem1
  obtain ⟨hmem1g, hmem1c⟩ := hmem1
  have hS1groups : ∀ gp ∈ S1.1, ∀ a ∈ gp, a ∈ l1 ++ [f] := by
    intro gp hgp a ha
    rcases hmem1g gp hgp with h | h
    · exact absurd h (List.not_mem_nil gp)
    · simpa using h a ha
  have hS1cur : ∀ a ∈ S1.2.1, a ∈ l1 ++ [f] := by
    intro a ha
    simpa using hmem1c a ha
  -- processing g necessarily closes the current cluster
  have hcurne : ¬S1.2.1.isEmpty := by
    simp only [List.isEmpty_iff]
    intro hc
    rw [hc] at hfS1
    exact absurd hfS1 (List.not_mem_nil f)
  have hgapmid : ¬(|yMid g - S1.2.2| ≤ max 1 (ratio * lineSpacing)) := by
    have h1 : max 1 (ratio * lineSpacing) < yMid g - S1.2.2 := by
      have : yMid g - yMid f ≤ yMid g - S1.2.2 := by linarith
      linarith
    intro habs
    have : yMid g - S1.2.2 ≤ |yMid g - S1.2.2| := le_abs_self _
    linarith
  have hstepg : groupStep (max 1 (ratio * lineSpacing)) S1 g =
      (S1.1 ++ [sortByX S1.2.1], [g], yMid g) := by
    obtain ⟨groups1, cur1, mid1⟩ := S1
    simp only at hcurne hgapmid
    simp [groupStep, hcurne, hgapmid]
  rw [hstepg] at hrow
  -- membership bounds for the suffix run
  have hmem2 := foldl_groupStep_mem (max 1 (ratio * lineSpacing)) l2
    (S1.1 ++ [sortByX S1.2.1], [g], yMid g)
  obtain ⟨hmem2g, hmem2c⟩ := hmem2
  set S3 := l2.foldl (groupStep (max 1 (ratio * lineSpacing)))
    (S1.1 ++ [sortByX S1.2.1], [g], yMid g) with hS3
  -- case analysis on where the offending row sits
  have hrow2 : row ∈ S3.1 ∨ row = sortByX S3.2.1 := mem_groupFinish hrow
  have hsuffix : ∀ a ∈ ([g] ++ l2 : List Frag), a ∈ g :: l2 := by
    intro a ha
    simpa using ha
  rcases hrow2 with hrowg | hrowflush
  · rcases hmem2g row hrowg with h | h
    · -- a row closed before g: its elements lie in the prefix
      rcases List.mem_append.mp h with h2 | h2
      · exact hgf (hS1groups row h2 g hgr)
      · have : g ∈ sortByX S1.2.1 := by
          rw [List.mem_singleton.mp h2] at hgr
          exact hgr
        exact hgf (hS1cur g ((sortByX_perm S1.2.1).subset this))
    · -- a row formed after g: its elements lie in the suffix
      have hfmem : f ∈ g :: l2 := hsuffix f (h f hfr)
      rcases List.mem_cons.mp hfmem with h2 | h2
      · exact hfg h2
      · exact hfl2 h2
  · -- the flushed final cluster: its elements lie in the suffix
    have : f ∈ S3.2.1 := by
      rw [hrowflush] at hfr
      exact (sortByX_perm S3.2.1).subset hfr
    have hfmem : f ∈ g :: l2 := hsuffix f (hmem2c f this)
    rcases List.mem_cons.mp hfmem with h2 | h2
    · exact hfg h2
    · exact hfl2 h2

/-- C2 (witness): with line spacing 1 and ratio 1 (threshold 1), fragments
with vertical centers 0 and 3 are adjacent in the sorted order and
separated by more than the threshold, so the row containing the second
does not contain the first. -/
theorem cluster_gap_separates_witness :
    ¬((⟨"a", 0, 0, 0, 0⟩ : Frag) ∈ ([⟨"c", 0, 3, 0, 0⟩] : List Frag) ∧
      (⟨"c", 0, 3, 0, 0⟩ : Frag) ∈ ([⟨"c", 0, 3, 0, 0⟩] : List Frag)) :=
  cluster_gap_separates [⟨"a", 0, 0, 0, 0⟩, ⟨"c", 0, 3, 0, 0⟩] [] []
    ⟨"a", 0, 0, 0, 0⟩ ⟨"c", 0, 3, 0, 0⟩ 1 1 (by decide) (by decide)
    (by norm_num [yMid]) [⟨"c", 0, 3, 0, 0⟩] (by decide)

/-! ## C6: the page dimensions seen by fragment-level predicates -/

theorem mem_filterCallInfos {boxFilters : List BoxFilter} {boxData : BoxData}
    {pageInfo q : PageInfo}
    (h : q ∈ filterCallInfos boxFilters boxData pageInfo) : q = pageInfo := by
  induction boxFilters with
  | nil => exact absurd h (List.not_mem_nil q)
  | cons f rest ih =>
    simp only [filterCallInfos, List.mem_cons] at h
    rcases h with h | h
    · exact h
    · rcases hf : f boxData pageInfo with _ | b
      · rw [hf] at h
        exact ih h
      · cases b
        · rw [hf] at h
          exact absurd h (List.not_mem_nil q)
        · rw [hf] at h
          exact ih h

/-- C6 (counterexample): on the RapidOCR path the fragment-level predicates
run DURING region construction, before the page dimensions are computed: on
a fresh converter, a predicate is invoked with `page_width = page_height =
0`, while the union of the region/line/word boxes of that same conversion
has extent 10 x 10. -/
theorem rapidocr_filters_see_stale_dims :
    rapidocrBoxFilterCalls (OCRJsonToTextLine.init 300 50 (3/2))
        [fun _ _ => some true]
        [⟨some "hi", some [[0, 0], [10, 0], [10, 10], [0, 10]]⟩] = [⟨0, 0⟩]
  ∧ ((OCRJsonToTextLine.init 300 50 (3/2)).updatePageDimensions
        (convertRapidocrToRegions (OCRJsonToTextLine.init 300 50 (3/2))
          [fun _ _ => some true]
          [⟨some "hi", some [[0, 0], [10, 0], [10, 10], [0, 10]]⟩])).pageWidth = 10
  ∧ ((OCRJsonToTextLine.init 300 50 (3/2)).updatePageDimensions
        (convertRapidocrToRegions (OCRJsonToTextLine.init 300 50 (3/2))
          [fun _ _ => some true]
          [⟨some "hi", some [[0, 0], [10, 0], [10, 10], [0, 10]]⟩])).pageHeight = 10
  ∧ (⟨0, 0⟩ : PageInfo) ≠ ⟨10, 10⟩ := by
  refine ⟨rfl, rfl, rfl, by decide⟩

theorem updatePageDimensions_extent (st : OCRJsonToTextLine)
    (regions : List Region) (r : Region) (hr : r ∈ regions) :
    st.updatePageDimensions regions =
      { st with
        pageWidth := listMax ((allBoxes regions).map (fun b => b.x + b.width)) -
          listMin ((allBoxes regions).map (fun b => b.x))
        pageHeight := listMax ((allBoxes regions).map (fun b => b.y + b.height)) -
          listMin ((allBoxes regions).map (fun b => b.y)) } := by
  have hrne : ¬regions.isEmpty := by
    simp only [List.isEmpty_iff]
    intro hemp
    rw [hemp] at hr
    exact absurd hr (List.not_mem_nil r)
  have hboxes : allBoxes regions ≠ [] := by
    intro hemp
    have : r.boundingBox ∈ allBoxes regions := by
      simp only [allBoxes, List.mem_flatten, List.mem_map]
      exact ⟨regionBoxes r, ⟨r, hr, rfl⟩, by simp [regionBoxes]⟩
    rw [hemp] at this
    exact absurd this (List.not_mem_nil _)
  have hxe : ¬((allBoxes regions).map (fun b => b.x)).isEmpty := by
    simp only [List.isEmpty_iff, List.map_eq_nil_iff]
    exact hboxes
  simp only [OCRJsonToTextLine.updatePageDimensions, hrne, Bool.false_eq_true,
    if_false, hxe]

theorem collect_filters_extent (st : OCRJsonToTextLine)
    (boxFilters : List BoxFilter) (regions : List Region) (pi : PageInfo)
    (hpi : pi ∈ collectBoxFilterCalls st boxFilters regions) :
    pi = ⟨listMax ((allBoxes regions).map (fun b => b.x + b.width)) -
            listMin ((allBoxes regions).map (fun b => b.x)),
          listMax ((allBoxes regions).map (fun b => b.y + b.height)) -
            listMin ((allBoxes regions).map (fun b => b.y))⟩ := by
  simp only [collectBoxFilterCalls, List.mem_flatten, List.mem_map] at hpi
  obtain ⟨inner, ⟨⟨r, hr, hinner⟩, hpinner⟩⟩ := hpi
  rw [updatePageDimensions_extent st regions r hr] at hinner
  -- inside one region: the invocation page-info is the constant just computed
  by_cases hdir : r.dir ≠ "h"
  · rw [← hinner] at hpinner
    simp only [if_pos hdir] at hpinner
    exact absurd hpinner (List.not_mem_nil pi)
  · rw [← hinner] at hpinner
    simp only [if_neg hdir] at hpinner
    simp only [List.mem_flatten, List.mem_map] at hpinner
    obtain ⟨calls, ⟨⟨l, hl, hcalls⟩, hpcalls⟩⟩ := hpinner
    by_cases htext : l.text = ""
    · rw [← hcalls] at hpcalls
      simp only [if_pos htext] at hpcalls
      exact absurd hpcalls (List.not_mem_nil pi)
    · rw [← hcalls] at hpcalls
      simp only [if_neg htext] at hpcalls
      exact mem_filterCallInfos hpcalls

/-- C6 (amended): every fragment-level predicate invocation made during
`convert_regions_to_text_lines` — at the horizontal collection site
(line 574) and at the vertical-text site (line 495) alike — receives page
dimensions equal to the extent of the union of all region, line and word
boxes of the FULL region list, computed once by `_update_page_dimensions`
(line 543, inside the unconditional collect step) before any predicate
runs.  Only the RapidOCR adapter additionally consults the predicates
earlier, during region construction, with the converter's pre-existing
dimensions (zero on a fresh converter) and before the union is computed. -/
theorem convert_filters_see_full_extent (st : OCRJsonToTextLine)
    (boxFilters : List BoxFilter) (regions : List Region) (pi : PageInfo)
    (hpi : pi ∈ convertRegionsBoxFilterCalls st boxFilters regions) :
    pi = ⟨listMax ((allBoxes regions).map (fun b => b.x + b.width)) -
            listMin ((allBoxes regions).map (fun b => b.x)),
          listMax ((allBoxes regions).map (fun b => b.y + b.height)) -
            listMin ((allBoxes regions).map (fun b => b.y))⟩ := by
  simp only [convertRegionsBoxFilterCalls, List.mem_append] at hpi
  rcases hpi with h | h
  · exact collect_filters_extent st boxFilters regions pi h
  · simp only [List.mem_flatten, List.mem_map] at h
    obtain ⟨inner, ⟨⟨r, hrv, hinner⟩, hpinner⟩⟩ := h
    have hr : r ∈ regions := by
      have h1 : r ∈ regions.filter (fun r => r.dir == "v") :=
        (List.perm_insertionSort _ _).subset hrv
      exact List.mem_of_mem_filter h1
    rw [← hinner] at hpinner
    simp only [List.mem_flatten, List.mem_map] at hpinner
    obtain ⟨calls, ⟨⟨l, _, hcalls⟩, hpcalls⟩⟩ := hpinner
    rw [← hcalls] at hpcalls
    have hst1 : (collectHorizontalFragments st boxFilters regions).1 =
        st.updatePageDimensions regions := rfl
    rw [hst1, updatePageDimensions_extent st regions r hr] at hpcalls
    exact mem_filterCallInfos hpcalls

/-- C6 (witness): a single vertical region with one line whose box extends
from (0,0) to (10,10); the vertical-text site's predicate invocation
receives page dimensions 10 x 10, the union extent. -/
theorem convert_filters_see_full_extent_witness :
    (⟨10, 10⟩ : PageInfo) =
      ⟨listMax ((allBoxes [⟨"zh", "v",
            [⟨"t", [], ⟨0, 0, 10, 10⟩, 10, ""⟩], ⟨0, 0, 10, 10⟩⟩]).map
          (fun b => b.x + b.width)) -
        listMin ((allBoxes [⟨"zh", "v",
            [⟨"t", [], ⟨0, 0, 10, 10⟩, 10, ""⟩], ⟨0, 0, 10, 10⟩⟩]).map
          (fun b => b.x)),
      listMax ((allBoxes [⟨"zh", "v",
            [⟨"t", [], ⟨0, 0, 10, 10⟩, 10, ""⟩], ⟨0, 0, 10, 10⟩⟩]).map
          (fun b => b.y + b.height)) -
        listMin ((allBoxes [⟨"zh", "v",
            [⟨"t", [], ⟨0, 0, 10, 10⟩, 10, ""⟩], ⟨0, 0, 10, 10⟩⟩]).map
          (fun b => b.y))⟩ :=
  convert_filters_see_full_extent (OCRJsonToTextLine.init 300 50 (3/2))
    [fun _ _ => some true]
    [⟨"zh", "v", [⟨"t", [], ⟨0, 0, 10, 10⟩, 10, ""⟩], ⟨0, 0, 10, 10⟩⟩]
    ⟨10, 10⟩ (by decide)

/-! ## C9: the margin detector's gradient-peak fallback -/

theorem scanPositions_headD (initialPos limit windowSize : Nat)
    (ascending : Bool) (hlo : windowSize ≤ initialPos)
    (hhi : initialPos + windowSize ≤ limit)
    (hne : scanPositions initialPos ascending limit windowSize ≠ []) :
    (scanPositions initialPos ascending limit windowSize).headD 0 =
      initialPos := by
  have hpred : (decide (windowSize ≤ initialPos) &&
      decide (initialPos + windowSize ≤ limit)) = true := by
    simp [hlo, hhi]
  cases ascending with
  | true =>
    rcases hn : limit - initialPos with _ | n
    · exfalso
      apply hne
      simp [scanPositions, hn]
    · simp only [scanPositions, hn, List.range'_succ, List.filter_cons, hpred,
        if_true]
      rfl
  | false =>
    cases initialPos with
    | zero =>
      exfalso
      apply hne
      simp [scanPositions, descendingRange]
    | succ n =>
      simp only [scanPositions, Bool.false_eq_true, if_false, descendingRange,
        List.filter_cons, hpred, if_true]
      rfl

theorem calculateGradients_length (densities : List ℚ) :
    (calculateGradients densities).length = densities.length := by
  by_cases h : densities.length < 2
  · simp [calculateGradients, h]
  · simp [calculateGradients, h]

theorem zero_getD (l : List ℚ) (h : ∀ x ∈ l, x = 0) :
    ∀ i, l.getD i 0 = 0 := by
  induction l with
  | nil => intro i; simp
  | cons a t ih =>
    intro i
    cases i with
    | zero => simpa using h a (by simp)
    | succ j =>
      simp only [List.getD_cons_succ]
      exact ih (fun x hx => h x (by simp [hx])) j

theorem calculateGradients_zero (densities : List ℚ)
    (h : ∀ x ∈ densities, x = 0) :
    ∀ y ∈ calculateGradients densities, y = 0 := by
  intro y hy
  by_cases hlen : densities.length < 2
  · simp only [calculateGradients, hlen, if_true] at hy
    exact List.eq_of_mem_replicate hy
  · simp only [calculateGradients, hlen, if_false, List.mem_map] at hy
    obtain ⟨i, _, hi⟩ := hy
    rw [← hi]
    by_cases h0 : i = 0
    · rw [if_pos h0, zero_getD densities h 1, zero_getD densities h 0, sub_self]
    · by_cases hlast : i = densities.length - 1
      · rw [if_neg h0, if_pos hlast, zero_getD densities h i,
          zero_getD densities h (i - 1), sub_self]
      · rw [if_neg h0, if_neg hlast, zero_getD densities h (i + 1),
          zero_getD densities h (i - 1), sub_self, zero_div]

/-- C9: for a boundary scan whose initial candidate position is itself a
scanned position (`window_size <= initial_pos <= limit - window_size`, true
for the detector's four edges under body ratios in [0, 1]) and a
non-negative gradient threshold: (1) whenever at least three positions are
scanned, the result is the scanned position of maximal absolute density
derivative if that derivative strictly exceeds the threshold, and the
initial candidate position otherwise; (2) for an all-white image — density
identically zero — the result is the initial candidate position. -/
theorem detectBoundary_spec (dens : Nat → ℚ)
    (initialPos limit windowSize : Nat) (ascending : Bool) (thr : ℚ)
    (hlo : windowSize ≤ initialPos) (hhi : initialPos + windowSize ≤ limit)
    (hthr : 0 ≤ thr) :
    (3 ≤ (scanPositions initialPos ascending limit windowSize).length →
      detectBoundarySlidingWindow dens initialPos ascending limit windowSize thr =
        (if thr < ((calculateGradients
              ((scanPositions initialPos ascending limit windowSize).map dens)).map
                (fun g => |g|)).getD
              (argmaxIdx ((calculateGradients
                ((scanPositions initialPos ascending limit windowSize).map dens)).map
                  (fun g => |g|))) 0 then
          (scanPositions initialPos ascending limit windowSize).getD
            (argmaxIdx ((calculateGradients
              ((scanPositions initialPos ascending limit windowSize).map dens)).map
                (fun g => |g|))) 0
        else initialPos))
  ∧ ((∀ p, dens p = 0) →
      detectBoundarySlidingWindow dens initialPos ascending limit windowSize thr =
        initialPos) := by
  set positions := scanPositions initialPos ascending limit windowSize
    with hpos
  have hmain : 3 ≤ positions.length →
      detectBoundarySlidingWindow dens initialPos ascending limit windowSize thr =
        (if thr < ((calculateGradients (positions.map dens)).map
              (fun g => |g|)).getD
              (argmaxIdx ((calculateGradients (positions.map dens)).map
                (fun g => |g|))) 0 then
          positions.getD
            (argmaxIdx ((calculateGradients (positions.map dens)).map
              (fun g => |g|))) 0
        else initialPos) := by
    intro h3
    have hne : positions ≠ [] := by
      intro hemp
      rw [hemp] at h3
      simp at h3
    have hdlen : (positions.map dens).length = positions.length :=
      List.length_map positions dens
    have hnlt : ¬(positions.map dens).length < 3 := by omega
    have hpe : ¬positions.isEmpty := by
      simpa [List.isEmpty_iff] using hne
    have hge : ¬(calculateGradients (positions.map dens)).isEmpty := by
      simp only [List.isEmpty_iff]
      intro hemp
      have := calculateGradients_length (positions.map dens)
      rw [hemp] at this
      simp at this
      omega
    simp only [detectBoundarySlidingWindow, ← hpos, hnlt, if_false,
      findGradientPeak, hpe, hge, Bool.false_eq_true, Bool.or_self]
    rw [scanPositions_headD initialPos limit windowSize ascending hlo hhi hne]
  constructor
  · exact hmain
  · intro hwhite
    by_cases h3 : 3 ≤ positions.length
    · rw [hmain h3]
      have hz : ∀ x ∈ positions.map dens, x = 0 := by
        intro x hx
        obtain ⟨p, _, hp⟩ := List.mem_map.mp hx
        rw [← hp]
        exact hwhite p
      have habs : ∀ y ∈ (calculateGradients (positions.map dens)).map
          (fun g => |g|), y = 0 := by
        intro y hy
        obtain ⟨gr, hgr, hgy⟩ := List.mem_map.mp hy
        rw [← hgy, calculateGradients_zero (positions.map dens) hz gr hgr]
        exact abs_zero
      rw [zero_getD _ habs]
      rw [if_neg (not_lt.mpr hthr)]
    · have hnlt : (positions.map dens).length < 3 := by
        have := List.length_map positions dens
        omega
      simp only [detectBoundarySlidingWindow, ← hpos, hnlt, if_true]

/-- C9 (witness): the all-white clause at a concrete configuration — a scan
from position 20 up to limit 60 with window 20 and threshold 1/10 over the
zero density function returns the initial candidate 20. -/
theorem detectBoundary_spec_witness :
    detectBoundarySlidingWindow (fun _ => 0) 20 true 60 20 (1/10) = 20 :=
  (detectBoundary_spec (fun _ => 0) 20 60 20 true (1/10)
    (by norm_num) (by norm_num) (by norm_num)).2 (fun _ => rfl)

end RecoverLayout
